import Mathlib

/-!
Verification of the nebula secrets/policy authority against its
natural-language specification.

The definitions below are a shallow embedding of the Rust sources under
`crates/`.  Pure in-memory code (the `AccessCondition` aggregate, the
JWKS-discovery wiring, the BN462 wrappers) is translated directly;
database-backed services are embedded as explicit state passing: the rows a
query would see are threaded as values, and a fallible operation returns
`Except`.  Parts of the repository that are referenced but whose sources are
not part of the extract (the MIRACL big-number library, the
`domain::secret::Path` aggregate, the policy-expression parser) are modelled
from the specification; each such definition carries a doc comment starting
with `Modelled from the spec:`.
-/

/-! ## Policy domain (`nebula-backbone-domain/src/domain/policy/mod.rs`) -/

/-- Errors of the policy domain module (`domain/policy/mod.rs`, `enum Error`).
`InvalidExpression` wraps the parser error; `PolicyNameDuplicated` carries the
entered policy name; `Anyhow` wraps infrastructure errors. -/
inductive PolicyError where
  | InvalidExpression : PolicyError
  | PolicyNameDuplicated (entered_policy_name : String) : PolicyError
  | Anyhow (msg : String) : PolicyError
deriving Repr, DecidableEq

/-- The `AccessCondition` aggregate (`domain/policy/mod.rs`): a named boolean
expression with staged (in-memory) mutations `updated_name`,
`updated_expression` and a `deleted` tombstone flag. -/
structure AccessCondition where
  id : Nat
  name : String
  expression : String
  updated_name : Option String
  updated_expression : Option String
  deleted : Bool
deriving Repr, DecidableEq

namespace AccessCondition

/-- `AccessCondition::new`: a freshly loaded aggregate has no staged changes. -/
def new (id : Nat) (name expression : String) : AccessCondition :=
  { id := id, name := name, expression := expression,
    updated_name := none, updated_expression := none, deleted := false }

/-- `AccessCondition::update_name`: returns unchanged when the new name equals
the current name or the already-staged name, otherwise stages it. -/
def update_name (ac : AccessCondition) (new_name : String) : AccessCondition :=
  if ac.name = new_name ∨ ac.updated_name = some new_name then ac
  else { ac with updated_name := some new_name }

/-- `AccessCondition::delete`: sets the tombstone flag. -/
def delete (ac : AccessCondition) : AccessCondition :=
  { ac with deleted := true }

end AccessCondition

/-- A stored `policy` table row (`database/policy.rs` model, key columns). -/
structure PolicyRow where
  id : Nat
  name : String
  expression : String
deriving Repr, DecidableEq

/-- The number of stored policy rows with the given name: the counting query
issued by `ensure_policy_name_not_duplicated`. -/
def countByName (rows : List PolicyRow) (policy_name : String) : Nat :=
  (rows.filter (fun r => r.name = policy_name)).length

/-- `ensure_policy_name_not_duplicated` (`domain/policy/mod.rs`): errors with
`PolicyNameDuplicated` when any stored policy already holds the name. -/
def ensure_policy_name_not_duplicated (rows : List PolicyRow)
    (policy_name : String) : Except PolicyError Unit :=
  if countByName rows policy_name > 0 then
    Except.error (PolicyError.PolicyNameDuplicated policy_name)
  else
    Except.ok ()

/-- `validate_expression` (`domain/policy/mod.rs`): runs the human-policy
parser (`nebula_policy::pest::parse`); the parser itself is outside the
extract, so it is passed in as a predicate `parse`. -/
def validate_expression (parse : String → Bool) (expression : String) :
    Except PolicyError Unit :=
  if parse expression then Except.ok ()
  else Except.error PolicyError.InvalidExpression

/-- `PostgresPolicyService::register` (`domain/policy/mod.rs`): validates the
expression, then checks name uniqueness, then inserts the row.  The returned
pair is (outcome, policy table after the transaction): on an error the
transaction is rolled back, so the table is returned unchanged. -/
def PolicyService.register (parse : String → Bool) (newId : Nat)
    (rows : List PolicyRow) (name expression : String) :
    Except PolicyError Unit × List PolicyRow :=
  match validate_expression parse expression with
  | Except.error e => (Except.error e, rows)
  | Except.ok _ =>
    match ensure_policy_name_not_duplicated rows name with
    | Except.error e => (Except.error e, rows)
    | Except.ok _ =>
      (Except.ok (), rows ++ [{ id := newId, name := name, expression := expression }])

/-- One SQL statement issued by `AccessCondition::persist`. -/
inductive PolicyStmt where
  | deleteById (id : Nat) : PolicyStmt
  | updateRow (id : Nat) (name : Option String) (expression : Option String) : PolicyStmt
deriving Repr, DecidableEq

/-- `AccessCondition::persist` (`domain/policy/mod.rs`): when the tombstone is
set, issues only the DELETE by id and returns; otherwise re-checks name
uniqueness when a name is staged and issues the single partial UPDATE.  `rows`
is the policy table the uniqueness query sees. -/
def AccessCondition.persist (ac : AccessCondition) (rows : List PolicyRow) :
    Except PolicyError (List PolicyStmt) :=
  if ac.deleted then
    Except.ok [PolicyStmt.deleteById ac.id]
  else
    match ac.updated_name with
    | some updated_name =>
      match ensure_policy_name_not_duplicated rows updated_name with
      | Except.error e => Except.error e
      | Except.ok _ =>
        Except.ok [PolicyStmt.updateRow ac.id (some updated_name) ac.updated_expression]
    | none =>
      Except.ok [PolicyStmt.updateRow ac.id none ac.updated_expression]

/-! ### Claims C3, C4, C10 -/

/-- C3: `PolicyService::register(name, expression)` fails with
`InvalidExpression` for every expression the human-policy parser rejects and
with `PolicyNameDuplicated` for every name already held by a stored policy,
the expression being validated before the duplicate-name lookup; on either
failure the policy table is unchanged (no row inserted). -/
theorem c3_register_rejects_invalid_and_duplicate
    (parse : String → Bool) (newId : Nat) (rows : List PolicyRow)
    (name expression : String) :
    (parse expression = false →
      PolicyService.register parse newId rows name expression
        = (Except.error PolicyError.InvalidExpression, rows))
    ∧ (parse expression = true → countByName rows name > 0 →
      PolicyService.register parse newId rows name expression
        = (Except.error (PolicyError.PolicyNameDuplicated name), rows)) := by
  constructor
  · intro hp
    simp [PolicyService.register, validate_expression, hp]
  · intro hp hdup
    simp [PolicyService.register, validate_expression, hp,
      ensure_policy_name_not_duplicated, hdup]

/-- Witness for C3: a parser accepting only `("role=FRONTEND")`; an invalid
expression is rejected even though the name is free, and a duplicate name is
rejected when the expression parses, leaving the table unchanged in both
cases. -/
theorem c3_register_rejects_invalid_and_duplicate_witness :
    PolicyService.register (fun s => s = "(\"role=FRONTEND\")") 7
        [PolicyRow.mk 1 "taken" "(\"role=FRONTEND\")"] "fresh" "(\"role=FRONTEND\""
      = (Except.error PolicyError.InvalidExpression,
         [PolicyRow.mk 1 "taken" "(\"role=FRONTEND\")"])
    ∧ PolicyService.register (fun s => s = "(\"role=FRONTEND\")") 7
        [PolicyRow.mk 1 "taken" "(\"role=FRONTEND\")"] "taken" "(\"role=FRONTEND\")"
      = (Except.error (PolicyError.PolicyNameDuplicated "taken"),
         [PolicyRow.mk 1 "taken" "(\"role=FRONTEND\")"]) := by
  refine ⟨?_, ?_⟩
  · exact (c3_register_rejects_invalid_and_duplicate
      (fun s => s = "(\"role=FRONTEND\")") 7
      [PolicyRow.mk 1 "taken" "(\"role=FRONTEND\")"] "fresh"
      "(\"role=FRONTEND\"").1 (by decide)
  · exact (c3_register_rejects_invalid_and_duplicate
      (fun s => s = "(\"role=FRONTEND\")") 7
      [PolicyRow.mk 1 "taken" "(\"role=FRONTEND\")"] "taken"
      "(\"role=FRONTEND\")").2 (by decide) (by decide)

/-- C4: `AccessCondition::update_name(n)` is idempotent: it is the identity
when `n` equals the current name or the already-staged name, and applying it
twice with the same `n` equals applying it once. -/
theorem c4_update_name_idempotent (ac : AccessCondition) (n : String) :
    ((ac.name = n ∨ ac.updated_name = some n) → ac.update_name n = ac)
    ∧ (ac.update_name n).update_name n = ac.update_name n := by
  constructor
  · intro h
    simp [AccessCondition.update_name, h]
  · by_cases h : ac.name = n ∨ ac.updated_name = some n
    · simp [AccessCondition.update_name, h]
    · simp [AccessCondition.update_name, h]

/-- Witness for C4: updating to the current name is a no-op, and a repeated
update with a genuinely new name stages the same single value as one call. -/
theorem c4_update_name_idempotent_witness :
    (AccessCondition.new 1 "test1" "(\"role=FRONTEND@A\")").update_name "test1"
      = AccessCondition.new 1 "test1" "(\"role=FRONTEND@A\")"
    ∧ ((AccessCondition.new 1 "test1" "(\"role=FRONTEND@A\")").update_name "test2").update_name "test2"
      = (AccessCondition.new 1 "test1" "(\"role=FRONTEND@A\")").update_name "test2" := by
  refine ⟨?_, ?_⟩
  · exact (c4_update_name_idempotent
      (AccessCondition.new 1 "test1" "(\"role=FRONTEND@A\")") "test1").1
      (Or.inl (by decide))
  · exact (c4_update_name_idempotent
      (AccessCondition.new 1 "test1" "(\"role=FRONTEND@A\")") "test2").2

/-- C10: once `AccessCondition::delete()` has been called, `persist` issues
only the DELETE by id, independent of the stored rows (so no name-uniqueness
check runs), issues no UPDATE even when a name or expression is staged, and in
particular never returns `PolicyNameDuplicated`. -/
theorem c10_persist_deleted_only_delete
    (ac : AccessCondition) (rows : List PolicyRow) (h : ac.deleted = true) :
    ac.persist rows = Except.ok [PolicyStmt.deleteById ac.id] := by
  simp [AccessCondition.persist, h]

/-- Witness for C10: a deleted aggregate with both a staged name and a staged
expression, persisted against a table where the staged name is already taken,
still issues only the DELETE and succeeds. -/
theorem c10_persist_deleted_only_delete_witness :
    AccessCondition.persist
      { id := 9, name := "old", expression := "(\"role=A@X\")",
        updated_name := some "taken", updated_expression := some "(\"role=B@X\")",
        deleted := true }
      [PolicyRow.mk 1 "taken" "(\"role=FRONTEND\")"]
      = Except.ok [PolicyStmt.deleteById 9] :=
  c10_persist_deleted_only_delete
    { id := 9, name := "old", expression := "(\"role=A@X\")",
      updated_name := some "taken", updated_expression := some "(\"role=B@X\")",
      deleted := true }
    [PolicyRow.mk 1 "taken" "(\"role=FRONTEND\")"] rfl

/-! ## Path domain (`nebula-backbone-domain/src/application/path/mod.rs`) -/

/-- `Role` of a `NebulaClaim` (`nebula_token::claim`, spec section 3). -/
inductive Role where
  | Member : Role
  | Admin : Role
deriving Repr, DecidableEq

/-- `NebulaClaim` (spec section 3): the authenticated principal. -/
structure NebulaClaim where
  gid : String
  workspace_name : String
  attributes : List (String × String)
  role : Role
deriving Repr, DecidableEq

/-- `AppliedPolicy` (spec section 3): a binding to a policy by id. -/
structure AppliedPolicy where
  policy_id : Nat
deriving Repr, DecidableEq

/-- The errors of the path use-case (`application/path/mod.rs`, `enum Error`),
each carrying the entered path where the source does. -/
inductive PathError where
  | PathIsInUse (entered_path : String) : PathError
  | PathNotExists (entered_path : String) : PathError
  | PathDuplicated (entered_path : String) : PathError
  | ParentPathNotExists (entered_path : String) : PathError
  | InvalidPath (entered_path : String) : PathError
  | InvalidPathPolicy : PathError
  | AccessDenied : PathError
  | Anyhow (msg : String) : PathError
deriving Repr, DecidableEq

/-- Modelled from the spec: the `domain::secret::Path` aggregate, whose source
module is not part of the extract.  Spec section 4.7: state transitions
`Loaded → {Updated | Deleted} → Persisted`, with staged mutations and a
tombstone flag (design notes, section 9). -/
structure PathAgg where
  path : String
  applied_policies : List AppliedPolicy
  updated_path : Option String
  updated_policies : Option (List AppliedPolicy)
  deleted : Bool
deriving Repr, DecidableEq

/-- `Path::new` (as used by the tests): a freshly loaded aggregate. -/
def PathAgg.load (path : String) (applied_policies : List AppliedPolicy) : PathAgg :=
  { path := path, applied_policies := applied_policies,
    updated_path := none, updated_policies := none, deleted := false }

/-- The parent of an absolute `/`-separated path (spec section 3: parent
prefix; the root `/` is its own parent here, it is never checked). -/
def parentPath (p : String) : String :=
  let joined := String.intercalate "/" (p.splitOn "/").dropLast
  if joined = "" then "/" else joined

/-- Modelled from the spec: the `SecretService` boundary used by
`PathUseCaseImpl` (`domain::secret` is not part of the extract).  `get_path`
loads the aggregate stored under a path; `count_child_paths` and
`count_child_secrets` are the two counting queries of the in-use rule (spec
section 4.7); `path_count` is the duplicate-name counting query used by path
update; `allows` is the evaluation of a path's ancestor policies against a
claim (spec section 4.9, external to the path claims); `valid_policy` is the
policy-expression validation for applied policies. -/
structure SecretServiceModel where
  get_path : String → Option PathAgg
  count_child_paths : String → Nat
  count_child_secrets : String → Nat
  path_count : String → Nat
  allows : NebulaClaim → String → Bool
  valid_policy : AppliedPolicy → Bool

/-- Modelled from the spec: `Path::delete` (spec section 4.7): verifies the
in-use rule — the child path count and the child secret-metadata count must
both be zero, else `PathIsInUse` — then marks the aggregate deleted. -/
def PathAgg.delete (agg : PathAgg) (svc : SecretServiceModel)
    (_claim : NebulaClaim) : Except PathError PathAgg :=
  if svc.count_child_paths agg.path = 0 ∧ svc.count_child_secrets agg.path = 0 then
    Except.ok { agg with deleted := true }
  else
    Except.error (PathError.PathIsInUse agg.path)

/-- Modelled from the spec: `Path::update_path` (spec section 4.7): checks the
new name is free and its parent exists, requires the claim to satisfy the old
and new parent policies, then stages the new path. -/
def PathAgg.update_path (agg : PathAgg) (svc : SecretServiceModel)
    (new_path : String) (claim : NebulaClaim) : Except PathError PathAgg :=
  if svc.path_count new_path > 0 then
    Except.error (PathError.PathDuplicated new_path)
  else if (svc.get_path (parentPath new_path)).isNone then
    Except.error (PathError.ParentPathNotExists new_path)
  else if !(svc.allows claim (parentPath agg.path) && svc.allows claim (parentPath new_path)) then
    Except.error PathError.AccessDenied
  else
    Except.ok { agg with updated_path := some new_path }

/-- Modelled from the spec: `Path::update_policies` (spec section 4.7):
re-validates each policy expression (`InvalidPathPolicy` otherwise) and stages
the new applied policies. -/
def PathAgg.update_policies (agg : PathAgg) (svc : SecretServiceModel)
    (new_policies : List AppliedPolicy) (_claim : NebulaClaim) :
    Except PathError PathAgg :=
  if new_policies.all (fun p => svc.valid_policy p) then
    Except.ok { agg with updated_policies := some new_policies }
  else
    Except.error PathError.InvalidPathPolicy

/-- One SQL statement issued when persisting a path aggregate (spec section
4.7: one statement per changed field plus a DELETE for the tombstone). -/
inductive PathStmt where
  | deleteRow (path : String) : PathStmt
  | updatePath (old_path new_path : String) : PathStmt
  | updatePolicies (path : String) (policies : List AppliedPolicy) : PathStmt
deriving Repr, DecidableEq

/-- Modelled from the spec: `Path::persist` (spec section 4.7): a DELETE for
the tombstone, otherwise one statement per changed field and none for
untouched fields. -/
def PathAgg.persist (agg : PathAgg) : List PathStmt :=
  if agg.deleted then
    [PathStmt.deleteRow agg.path]
  else
    (match agg.updated_path with
      | some np => [PathStmt.updatePath agg.path np]
      | none => [])
    ++ (match agg.updated_policies with
      | some ps => [PathStmt.updatePolicies agg.path ps]
      | none => [])

/-- `PathData` (`application/path/mod.rs`). -/
structure PathData where
  path : String
  applied_policies : List AppliedPolicy
deriving Repr, DecidableEq

namespace PathUseCase

/-- `PathUseCaseImpl::get` (`application/path/mod.rs` lines 107-117): load the
aggregate, `PathNotExists` with the entered path when absent. -/
def get (svc : SecretServiceModel) (path : String) : Except PathError PathData :=
  match svc.get_path path with
  | none => Except.error (PathError.PathNotExists path)
  | some agg => Except.ok { path := agg.path, applied_policies := agg.applied_policies }

/-- `PathUseCaseImpl::delete` (`application/path/mod.rs` lines 65-78): load the
aggregate (`PathNotExists` with the entered path when absent), run the
aggregate's delete, persist. -/
def delete (svc : SecretServiceModel) (path : String) (claim : NebulaClaim) :
    Except PathError (List PathStmt) :=
  match svc.get_path path with
  | none => Except.error (PathError.PathNotExists path)
  | some agg =>
    match agg.delete svc claim with
    | Except.error e => Except.error e
    | Except.ok agg2 => Except.ok agg2.persist

/-- `PathUseCaseImpl::update` (`application/path/mod.rs` lines 80-105): load
the aggregate (`PathNotExists` with the entered path when absent), stage the
optional path and policy updates, persist. -/
def update (svc : SecretServiceModel) (path : String) (new_path : Option String)
    (new_policies : Option (List AppliedPolicy)) (claim : NebulaClaim) :
    Except PathError (List PathStmt) :=
  match svc.get_path path with
  | none => Except.error (PathError.PathNotExists path)
  | some agg =>
    let step1 : Except PathError PathAgg :=
      match new_path with
      | some np => agg.update_path svc np claim
      | none => Except.ok agg
    match step1 with
    | Except.error e => Except.error e
    | Except.ok agg1 =>
      let step2 : Except PathError PathAgg :=
        match new_policies with
        | some ps => agg1.update_policies svc ps claim
        | none => Except.ok agg1
      match step2 with
      | Except.error e => Except.error e
      | Except.ok agg2 => Except.ok agg2.persist

end PathUseCase

/-! ### Claims C1, C5 -/

/-- C1: for every existing path `p`, `PathUseCase::delete(p, claim)` succeeds
iff both the child-path count and the child-secret-metadata count of `p` are
zero, and when either count is non-zero it fails with `PathIsInUse` carrying
the entered path `p`.  The hypothesis `hpath` is the service contract that
`get_path` returns the row stored under the queried path. -/
theorem c1_delete_iff_not_in_use
    (svc : SecretServiceModel) (p : String) (claim : NebulaClaim)
    (agg : PathAgg) (hget : svc.get_path p = some agg) (hpath : agg.path = p) :
    ((PathUseCase.delete svc p claim).isOk
      ↔ (svc.count_child_paths p = 0 ∧ svc.count_child_secrets p = 0))
    ∧ (¬(svc.count_child_paths p = 0 ∧ svc.count_child_secrets p = 0) →
        PathUseCase.delete svc p claim = Except.error (PathError.PathIsInUse p)) := by
  constructor
  · by_cases h : svc.count_child_paths p = 0 ∧ svc.count_child_secrets p = 0
    · simp [PathUseCase.delete, hget, PathAgg.delete, hpath, h, Except.isOk, Except.toBool]
    · simp [PathUseCase.delete, hget, PathAgg.delete, hpath, h, Except.isOk, Except.toBool]
  · intro h
    simp [PathUseCase.delete, hget, PathAgg.delete, hpath, h]

/-- The concrete service used to witness C1: `/test/path` exists and has one
child path and no child secret (spec section 8, scenario 2). -/
def svcC1 : SecretServiceModel :=
  { get_path := fun s => if s = "/test/path" then some (PathAgg.load "/test/path" []) else none,
    count_child_paths := fun _ => 1,
    count_child_secrets := fun _ => 0,
    path_count := fun _ => 0,
    allows := fun _ _ => true,
    valid_policy := fun _ => true }

/-- The member claim used in the path witnesses. -/
def claimMember : NebulaClaim :=
  { gid := "test@cremit.io", workspace_name := "cremit",
    attributes := [], role := Role.Member }

/-- Witness for C1: deleting `/test/path` while it has one child path fails
with `PathIsInUse { entered_path: "/test/path" }` and is not a success. -/
theorem c1_delete_iff_not_in_use_witness :
    ((PathUseCase.delete svcC1 "/test/path" claimMember).isOk
      ↔ (svcC1.count_child_paths "/test/path" = 0
          ∧ svcC1.count_child_secrets "/test/path" = 0))
    ∧ (¬(svcC1.count_child_paths "/test/path" = 0
          ∧ svcC1.count_child_secrets "/test/path" = 0) →
        PathUseCase.delete svcC1 "/test/path" claimMember
          = Except.error (PathError.PathIsInUse "/test/path")) :=
  c1_delete_iff_not_in_use svcC1 "/test/path" claimMember
    (PathAgg.load "/test/path" []) (by decide) rfl

/-- C5: for every path string `p` with no stored row, `get`, `update` and
`delete` each fail with `PathNotExists` carrying `entered_path = p`. -/
theorem c5_missing_path_not_exists
    (svc : SecretServiceModel) (p : String) (claim : NebulaClaim)
    (new_path : Option String) (new_policies : Option (List AppliedPolicy))
    (h : svc.get_path p = none) :
    PathUseCase.get svc p = Except.error (PathError.PathNotExists p)
    ∧ PathUseCase.update svc p new_path new_policies claim
        = Except.error (PathError.PathNotExists p)
    ∧ PathUseCase.delete svc p claim
        = Except.error (PathError.PathNotExists p) := by
  refine ⟨?_, ?_, ?_⟩
  · simp [PathUseCase.get, h]
  · simp [PathUseCase.update, h]
  · simp [PathUseCase.delete, h]

/-- The concrete service used to witness C5: no path is stored at all. -/
def svcC5 : SecretServiceModel :=
  { get_path := fun _ => none,
    count_child_paths := fun _ => 0,
    count_child_secrets := fun _ => 0,
    path_count := fun _ => 0,
    allows := fun _ _ => true,
    valid_policy := fun _ => true }

/-- Witness for C5: with an empty store, `get`, `update` (with a new path
staged) and `delete` of `/test/path` all yield
`PathNotExists { entered_path: "/test/path" }`. -/
theorem c5_missing_path_not_exists_witness :
    PathUseCase.get svcC5 "/test/path"
        = Except.error (PathError.PathNotExists "/test/path")
    ∧ PathUseCase.update svcC5 "/test/path" (some "/new/test/path") none claimMember
        = Except.error (PathError.PathNotExists "/test/path")
    ∧ PathUseCase.delete svcC5 "/test/path" claimMember
        = Except.error (PathError.PathNotExists "/test/path") :=
  c5_missing_path_not_exists svcC5 "/test/path" claimMember
    (some "/new/test/path") none rfl

/-! ## JWKS discovery wiring (C2) -/

/-- A JSON Web Key Set, opaque at this level (spec section 3). -/
structure JwkSet where
  keys : List String
deriving Repr, DecidableEq

/-- The discovery variant a server ends up holding (spec section 4.2): either
a fixed `StaticJwksDiscovery` or a `CachedRemoteJwksDiscovery` that holds the
URL and a refresh interval and spawns a background refresher. -/
inductive JwksDiscoveryKind where
  | staticSet (jwks : JwkSet) : JwksDiscoveryKind
  | cachedRemote (jwks_url : String) (refresh_interval_secs : Nat) : JwksDiscoveryKind
deriving Repr, DecidableEq

/-- Whether the discovery is the static variant. -/
def JwksDiscoveryKind.isStatic : JwksDiscoveryKind → Bool
  | JwksDiscoveryKind.staticSet _ => true
  | JwksDiscoveryKind.cachedRemote _ _ => false

/-- The JWKS discovery chosen by `nebula-backbone-domain`'s `application::init`
(`application/mod.rs` lines 128-133): both configuration branches construct a
`CachedRemoteJwksDiscovery`; with no configured interval it uses a 10-second
default. -/
def backboneInitJwksDiscovery (jwks_url : String)
    (jwks_refresh_interval : Option Nat) : JwksDiscoveryKind :=
  match jwks_refresh_interval with
  | some refresh_interval => JwksDiscoveryKind.cachedRemote jwks_url refresh_interval
  | none => JwksDiscoveryKind.cachedRemote jwks_url 10

/-- Result of the authority server's startup JWKS wiring: the discovery handle
plus how many times `fetch_jwks` ran at startup. -/
structure AuthorityJwksInit where
  discovery : JwksDiscoveryKind
  startup_fetches : Nat
deriving Repr, DecidableEq

/-- The JWKS discovery chosen by `nebula-authority`'s `main`
(`nebula-authority/src/main.rs` lines 33-43): with a configured interval it
awaits the cached-remote constructor (one startup fetch per spec section 4.2,
startup fetch failure is fatal); with none it calls `fetch_jwks` once and
wraps the result in a `StaticJwksDiscovery`.  `fetch` models the outcome of a
successful `fetch_jwks` against the URL. -/
def authorityInitJwksDiscovery (fetch : String → JwkSet) (jwks_url : String)
    (jwks_refresh_interval : Option Nat) : AuthorityJwksInit :=
  match jwks_refresh_interval with
  | some refresh_interval =>
    { discovery := JwksDiscoveryKind.cachedRemote jwks_url refresh_interval,
      startup_fetches := 1 }
  | none =>
    { discovery := JwksDiscoveryKind.staticSet (fetch jwks_url),
      startup_fetches := 1 }

/-! ### Claim C2 -/

/-- C2 counterexample: with no configured refresh interval, the backbone
server's `init` does not wrap the JWKS as a static discovery — it constructs a
cached-remote discovery with a 10-second default interval. -/
theorem c2_backbone_not_static_counterexample :
    backboneInitJwksDiscovery "https://authority/jwks" none
      = JwksDiscoveryKind.cachedRemote "https://authority/jwks" 10
    ∧ (backboneInitJwksDiscovery "https://authority/jwks" none).isStatic = false := by
  exact ⟨rfl, rfl⟩

/-- C2 as amended: when no `jwks_refresh_interval` is configured, the
authority server (`nebula-authority/src/main.rs`) fetches the JWKS exactly
once at startup and wraps the result as a static discovery, while the backbone
server (`nebula-backbone-domain` `application::init`) instead constructs a
cached-remote discovery with a 10-second default refresh interval. -/
theorem c2_jwks_wiring_amended (fetch : String → JwkSet) (jwks_url : String) :
    (authorityInitJwksDiscovery fetch jwks_url none).discovery
        = JwksDiscoveryKind.staticSet (fetch jwks_url)
    ∧ (authorityInitJwksDiscovery fetch jwks_url none).startup_fetches = 1
    ∧ backboneInitJwksDiscovery jwks_url none
        = JwksDiscoveryKind.cachedRemote jwks_url 10 := by
  exact ⟨rfl, rfl, rfl⟩

/-! ## BN462 pairing layer (`tessera-abe/src/curves/bn462.rs`)

The underlying big-integer and curve arithmetic (the MIRACL library) is out
of scope and "treated as an external primitive" (spec section 1); the layer is
"specified at the algebraic-contract level" (spec sections 1 and 4.1), and the
design notes (section 9) call for testing against a slow toy curve.  The
primitives below therefore model the order-q cyclic groups G1, G2 and Gt by
their discrete logarithms / exponents; the wrappers from `bn462.rs` are
translated on top of them. -/

/-- `MODBYTES` of the MIRACL BN462 configuration: the byte width of the
462-bit base field, `(462 + 7) / 8 = 58`. -/
def MODBYTES : Nat := 58

/-- `MSG_SIZE = 48 * MODBYTES` (`bn462.rs` line 34). -/
def MSG_SIZE : Nat := 48 * MODBYTES

/-- The Barreto-Naehrig parameter of BN462 (spec glossary: "BN462 —
Barreto-Naehrig pairing-friendly curve with 462-bit base field"). -/
def u462 : Nat := 2 ^ 114 + 2 ^ 101 - 2 ^ 14 - 1

/-- Modelled from the spec: `rom::CURVE_ORDER`, the order q of the BN462
groups, given by the standard Barreto-Naehrig parametrization
`r(u) = 36u^4 + 36u^3 + 18u^2 + 6u + 1`. -/
def CURVE_ORDER : Nat :=
  36 * u462 ^ 4 + 36 * u462 ^ 3 + 18 * u462 ^ 2 + 6 * u462 + 1

theorem CURVE_ORDER_pos : 0 < CURVE_ORDER := by
  unfold CURVE_ORDER
  exact Nat.lt_of_lt_of_le Nat.one_pos (Nat.le_add_left 1 _)

/-- `Bn462Field` (`bn462.rs`): a wrapper around a MIRACL `BIG`.  The raw value
is an arbitrary (not necessarily reduced) big integer; the modular operations
reduce modulo the curve order. -/
structure Bn462Field where
  inner : Nat
deriving Repr, DecidableEq

namespace Bn462Field

/-- `Field::new` (`= 0`). -/
def new : Bn462Field := ⟨0⟩

/-- `Field::one`. -/
def one : Bn462Field := ⟨1⟩

/-- `RefAdd::ref_add` via `BIG::modadd`. -/
def ref_add (a b : Bn462Field) : Bn462Field :=
  ⟨(a.inner + b.inner) % CURVE_ORDER⟩

/-- `RefMul::ref_mul` via `BIG::modmul`. -/
def ref_mul (a b : Bn462Field) : Bn462Field :=
  ⟨(a.inner * b.inner) % CURVE_ORDER⟩

end Bn462Field

/-- Modelled from the spec: MIRACL `BIG::random` fills `8 * MODBYTES` random
bits from the rng stream, i.e. draws a value uniform over
`[0, 2^(8·MODBYTES))`; `raw` is the value carried by the rng stream. -/
def BIG.random (raw : Nat) : Nat := raw % 2 ^ (8 * MODBYTES)

/-- Modelled from the spec: MIRACL `BIG::rmod` reduces modulo the given
modulus. -/
def BIG.rmod (x m : Nat) : Nat := x % m

/-- `FieldWithOrder::random_within_order` (`bn462.rs` lines 86-91): draw a
random `BIG`, then reduce it by `rmod` with the curve order. -/
def Bn462Field.random_within_order (raw : Nat) : Bn462Field :=
  ⟨BIG.rmod (BIG.random raw) CURVE_ORDER⟩

/-- Modelled from the spec: a MIRACL `ECP` point of the order-q group G1,
represented by its discrete logarithm to the generator (contract-level toy
curve, spec section 9). -/
structure ECP where
  log : Nat
deriving Repr, DecidableEq

/-- Modelled from the spec: a MIRACL `ECP2` point of the order-q group G2,
represented by its discrete logarithm to the generator. -/
structure ECP2 where
  log : Nat
deriving Repr, DecidableEq

/-- Modelled from the spec: a MIRACL `FP12` pairing-target value of the
order-q subgroup, represented by its exponent to the canonical generator
`pair(g1, g2)`; the exponent is kept reduced. -/
abbrev FP12 := { e : Nat // e < CURVE_ORDER }

/-- `pair::g1mul`: scalar multiplication in G1. -/
def g1mul (P : ECP) (e : Nat) : ECP := ⟨(P.log * e) % CURVE_ORDER⟩

/-- `pair::g2mul`: scalar multiplication in G2. -/
def g2mul (Q : ECP2) (e : Nat) : ECP2 := ⟨(Q.log * e) % CURVE_ORDER⟩

/-- Modelled from the spec: `pair::ate`, the ate pairing of an ECP2 and an ECP
point; at the contract level its image under the final exponentiation has
exponent `Q.log * P.log`. -/
def ate (Q : ECP2) (P : ECP) : FP12 :=
  ⟨(Q.log * P.log) % CURVE_ORDER, Nat.mod_lt _ CURVE_ORDER_pos⟩

/-- Modelled from the spec: `pair::fexp`, the final exponentiation into the
order-q subgroup; on the contract-level representation (already a member of
that subgroup) it is the identity map. -/
def fexp (x : FP12) : FP12 := x

/-- Modelled from the spec: `pair::gtpow`, exponentiation in the target
group. -/
def gtpow (x : FP12) (e : Nat) : FP12 :=
  ⟨(x.val * e) % CURVE_ORDER, Nat.mod_lt _ CURVE_ORDER_pos⟩

/-- `G1` (`bn462.rs`): wrapper around an `ECP`. -/
structure G1 where
  inner : ECP
deriving Repr, DecidableEq

namespace G1

/-- `GroupG1::generator`. -/
def generator : G1 := ⟨⟨1⟩⟩

/-- `RefMul<Bn462Field>::ref_mul` via `pair::g1mul`. -/
def ref_mul (P : G1) (rhs : Bn462Field) : G1 := ⟨g1mul P.inner rhs.inner⟩

end G1

/-- `G2` (`bn462.rs`): wrapper around an `ECP2`. -/
structure G2 where
  inner : ECP2
deriving Repr, DecidableEq

namespace G2

/-- `GroupG2::generator`. -/
def generator : G2 := ⟨⟨1⟩⟩

/-- `RefMul<Bn462Field>::ref_mul` via `pair::g2mul`. -/
def ref_mul (Q : G2) (rhs : Bn462Field) : G2 := ⟨g2mul Q.inner rhs.inner⟩

end G2

/-- Little-endian fixed-width byte encoding: the first argument is the number
of bytes to write. -/
def natToBytesLE : Nat → Nat → List UInt8
  | 0, _ => []
  | len + 1, v => UInt8.ofNat (v % 256) :: natToBytesLE len (v / 256)

/-- Little-endian byte decoding. -/
def bytesLEToNat : List UInt8 → Nat
  | [] => 0
  | b :: rest => b.toNat + 256 * bytesLEToNat rest

/-- Modelled from the spec: `FP12::tobytes` writes the element's fixed-width
serialization into the caller's buffer in place, so the output has exactly the
buffer's length (spec section 4.1: serialization of exactly 48·MODBYTES
length). -/
def FP12.tobytes (x : FP12) (buf : List UInt8) : List UInt8 :=
  natToBytesLE buf.length x.val

/-- Modelled from the spec: `FP12::frombytes` decodes the fixed-width
serialization back into a subgroup element. -/
def FP12.frombytes (bytes : List UInt8) : FP12 :=
  ⟨bytesLEToNat bytes % CURVE_ORDER, Nat.mod_lt _ CURVE_ORDER_pos⟩

/-- `Gt` (`bn462.rs`): wrapper around an `FP12`. -/
structure Gt where
  inner : FP12

namespace Gt

/-- `GroupGt::one`. -/
def one : Gt := ⟨⟨0, CURVE_ORDER_pos⟩⟩

/-- `Mul` for `Gt` via `FP12::mul` (the target group operation). -/
def mul (x y : Gt) : Gt :=
  ⟨⟨(x.inner.val + y.inner.val) % CURVE_ORDER, Nat.mod_lt _ CURVE_ORDER_pos⟩⟩

/-- `RefPow<Bn462Field>::ref_pow` via `pair::gtpow`. -/
def ref_pow (x : Gt) (rhs : Bn462Field) : Gt := ⟨gtpow x.inner rhs.inner⟩

/-- `From<Gt> for Vec<u8>` (`bn462.rs` lines 395-402): allocate a zeroed
buffer of `MSG_SIZE` bytes and let `FP12::tobytes` fill it in place. -/
def to_bytes (gt : Gt) : List UInt8 :=
  gt.inner.tobytes (List.replicate MSG_SIZE 0)

/-- `From<&[u8]> for Gt` (`bn462.rs` lines 404-409): `FP12::frombytes`. -/
def from_bytes (bytes : List UInt8) : Gt := ⟨FP12.frombytes bytes⟩

end Gt

/-- `Bn462Curve::pair` (`bn462.rs` lines 486-488):
`fexp(ate(e2.inner, e1.inner))`. -/
def Bn462Curve.pair (e1 : G1) (e2 : G2) : Gt := ⟨fexp (ate e2.inner e1.inner)⟩

/-! ### Claims C6, C7 -/

theorem natToBytesLE_length (len v : Nat) : (natToBytesLE len v).length = len := by
  induction len generalizing v with
  | zero => rfl
  | succ n ih => simp [natToBytesLE, ih]

theorem bytesLEToNat_natToBytesLE (len v : Nat) (h : v < 256 ^ len) :
    bytesLEToNat (natToBytesLE len v) = v := by
  induction len generalizing v with
  | zero =>
    simp only [natToBytesLE, bytesLEToNat]
    omega
  | succ n ih =>
    simp only [natToBytesLE, bytesLEToNat]
    have hdiv : v / 256 < 256 ^ n := by
      rw [Nat.div_lt_iff_lt_mul (by norm_num : 0 < 256)]
      calc v < 256 ^ (n + 1) := h
        _ = 256 ^ n * 256 := by rw [Nat.pow_succ]
    rw [ih _ hdiv]
    have hbyte : (UInt8.ofNat (v % 256)).toNat = v % 256 := by
      have h1 : (UInt8.ofNat (v % 256)).toNat = v % 256 % 256 :=
        UInt8.toNat_ofNat (v % 256)
      rw [h1]
      omega
    rw [hbyte]
    exact Nat.mod_add_div v 256

set_option maxRecDepth 10000 in
theorem CURVE_ORDER_lt_two_pow : CURVE_ORDER < 2 ^ 464 := by decide

theorem CURVE_ORDER_lt_byte_range : CURVE_ORDER < 256 ^ MSG_SIZE := by
  have h2 : (2 : Nat) ^ 464 ≤ 2 ^ (8 * MSG_SIZE) :=
    Nat.pow_le_pow_right (by norm_num) (by norm_num [MSG_SIZE, MODBYTES])
  have h3 : (256 : Nat) ^ MSG_SIZE = 2 ^ (8 * MSG_SIZE) := by
    rw [pow_mul]
    norm_num
  rw [h3]
  exact lt_of_lt_of_le CURVE_ORDER_lt_two_pow h2

/-- C6: `Gt` serialization round-trips — `from_bytes(to_bytes(x)) = x` for
every `x : Gt` — and `to_bytes` always produces exactly `48 * MODBYTES`
bytes. -/
theorem c6_gt_serialization_roundtrip (x : Gt) :
    Gt.from_bytes (Gt.to_bytes x) = x
    ∧ (Gt.to_bytes x).length = 48 * MODBYTES := by
  constructor
  · have hv : x.inner.val < 256 ^ MSG_SIZE :=
      lt_trans x.inner.property CURVE_ORDER_lt_byte_range
    have hval : bytesLEToNat (Gt.to_bytes x) = x.inner.val := by
      unfold Gt.to_bytes FP12.tobytes
      rw [List.length_replicate, bytesLEToNat_natToBytesLE _ _ hv]
    show Gt.mk (FP12.frombytes (Gt.to_bytes x)) = x
    refine congrArg Gt.mk (Subtype.ext ?_)
    show bytesLEToNat (Gt.to_bytes x) % CURVE_ORDER = x.inner.val
    rw [hval]
    exact Nat.mod_eq_of_lt x.inner.property
  · unfold Gt.to_bytes FP12.tobytes
    rw [natToBytesLE_length, List.length_replicate]
    rfl

set_option maxRecDepth 10000 in
theorem CURVE_ORDER_gt_one : 1 < CURVE_ORDER := by decide

/-- C7: the pairing is bilinear — for all field elements `a`, `b`,
`pair(g1 · a, g2 · b) = pair(g1, g2) ^ (a · b)`, where `pair(e1, e2)` is the
final exponentiation applied to the ate pairing of `(e2, e1)`. -/
theorem c7_pair_bilinear (a b : Bn462Field) :
    Bn462Curve.pair (G1.generator.ref_mul a) (G2.generator.ref_mul b)
      = (Bn462Curve.pair G1.generator G2.generator).ref_pow (a.ref_mul b) := by
  unfold Bn462Curve.pair G1.ref_mul G2.ref_mul Gt.ref_pow G1.generator G2.generator
    fexp ate g1mul g2mul gtpow Bn462Field.ref_mul
  congr 1
  apply Subtype.ext
  show 1 * b.inner % CURVE_ORDER * (1 * a.inner % CURVE_ORDER) % CURVE_ORDER
      = 1 * 1 % CURVE_ORDER * (a.inner * b.inner % CURVE_ORDER) % CURVE_ORDER
  rw [← Nat.mul_mod, ← Nat.mul_mod]
  simp [Nat.one_mul, Nat.mul_comm]

/-! ### Claim C8 -/

/-- The number of values `v < N` with `v % q = y`. -/
def residueCount (N q y : Nat) : Nat :=
  ((Finset.range N).filter (fun v => v % q = y)).card

theorem residueCount_eq (N q y : Nat) (hq : 0 < q) (hy : y < q) (hyN : y < N) :
    residueCount N q y = (N - y - 1) / q + 1 := by
  have hinj : Function.Injective (fun k => y + q * k) := by
    intro a b hab
    simp only [] at hab
    exact Nat.eq_of_mul_eq_mul_left hq (Nat.add_left_cancel hab)
  have himg : (Finset.range N).filter (fun v => v % q = y)
      = (Finset.range ((N - y - 1) / q + 1)).image (fun k => y + q * k) := by
    ext v
    simp only [Finset.mem_filter, Finset.mem_range, Finset.mem_image]
    constructor
    · rintro ⟨hvN, hvy⟩
      have hsplit : q * (v / q) + y = v := by
        conv_rhs => rw [← Nat.div_add_mod v q]
        rw [hvy]
      refine ⟨v / q, ?_, ?_⟩
      · rw [Nat.lt_succ_iff, Nat.le_div_iff_mul_le hq]
        obtain ⟨A, hA⟩ : ∃ A, v / q * q = A := ⟨_, rfl⟩
        rw [hA]
        have hAv : A + y = v := by
          rw [← hA, Nat.mul_comm]
          exact hsplit
        omega
      · rw [Nat.add_comm]
        exact hsplit
    · rintro ⟨k, hk, rfl⟩
      rw [Nat.lt_succ_iff, Nat.le_div_iff_mul_le hq] at hk
      constructor
      · obtain ⟨A, hA⟩ : ∃ A, k * q = A := ⟨_, rfl⟩
        rw [hA] at hk
        rw [Nat.mul_comm, hA]
        omega
      · rw [Nat.add_mul_mod_self_left]
        exact Nat.mod_eq_of_lt hy
  rw [residueCount, himg, Finset.card_image_of_injective _ hinj, Finset.card_range]

theorem sub_one_div_self (N q : Nat) (hq : 0 < q) (hr : N % q ≠ 0) :
    (N - 1) / q = N / q := by
  have hd : q * (N / q) + N % q = N := Nat.div_add_mod N q
  have hrlt : N % q < q := Nat.mod_lt _ hq
  obtain ⟨A, hA⟩ : ∃ A, q * (N / q) = A := ⟨_, rfl⟩
  rw [hA] at hd
  have h1 : N - 1 = q * (N / q) + (N % q - 1) := by
    rw [hA]
    omega
  rw [h1, Nat.mul_add_div hq, Nat.div_eq_of_lt (by omega : N % q - 1 < q), Nat.add_zero]

/-- The number of raw rng draws in the uniform range `[0, 2^(8·MODBYTES))`
that `random_within_order` maps to the residue `y`: the push-forward
distribution of the reduced draw. -/
def drawCount (y : Nat) : Nat :=
  ((Finset.range (2 ^ (8 * MODBYTES))).filter
    (fun raw => (Bn462Field.random_within_order raw).inner = y)).card

theorem drawCount_eq_residueCount (y : Nat) :
    drawCount y = residueCount (2 ^ (8 * MODBYTES)) CURVE_ORDER y := by
  unfold drawCount residueCount
  refine congrArg Finset.card (Finset.filter_congr ?_)
  intro v hv
  simp only [Finset.mem_range] at hv
  unfold Bn462Field.random_within_order BIG.rmod BIG.random
  rw [Nat.mod_eq_of_lt hv]

set_option maxRecDepth 10000 in
theorem CURVE_ORDER_not_dvd_range : 2 ^ (8 * MODBYTES) % CURVE_ORDER ≠ 0 := by decide

theorem drawCount_zero : drawCount 0 = 2 ^ (8 * MODBYTES) / CURVE_ORDER + 1 := by
  rw [drawCount_eq_residueCount]
  rw [residueCount_eq _ _ _ CURVE_ORDER_pos CURVE_ORDER_pos (by positivity)]
  rw [Nat.sub_zero, sub_one_div_self _ _ CURVE_ORDER_pos CURVE_ORDER_not_dvd_range]

theorem drawCount_last :
    drawCount (CURVE_ORDER - 1) = 2 ^ (8 * MODBYTES) / CURVE_ORDER := by
  rw [drawCount_eq_residueCount]
  have hq0 := CURVE_ORDER_pos
  have hlt : CURVE_ORDER < 2 ^ (8 * MODBYTES) := by
    have h2 : (2 : Nat) ^ 464 ≤ 2 ^ (8 * MODBYTES) :=
      Nat.pow_le_pow_right (by norm_num) (by decide)
    exact lt_of_lt_of_le CURVE_ORDER_lt_two_pow h2
  obtain ⟨N, hN⟩ : ∃ N, 2 ^ (8 * MODBYTES) = N := ⟨_, rfl⟩
  rw [hN] at hlt ⊢
  rw [residueCount_eq N CURVE_ORDER (CURVE_ORDER - 1) hq0 (by omega) (by omega)]
  have hrw : N - (CURVE_ORDER - 1) - 1 = N - CURVE_ORDER := by omega
  rw [hrw, ← Nat.div_eq_sub_div hq0 (le_of_lt hlt)]

/-- C8 counterexample: the distribution of `random_within_order` over the
uniform 8·MODBYTES-bit draw is not uniform over `[0, q)` — the residue `0` is
produced by strictly more raw draws than the residue `q - 1` (modulo bias of
reducing a `2^464`-sized range by a single `rmod`). -/
theorem c8_random_within_order_not_uniform_counterexample :
    drawCount 0 ≠ drawCount (CURVE_ORDER - 1) := by
  rw [drawCount_zero, drawCount_last]
  exact Nat.succ_ne_self _

/-- C8 as amended: the result of `random_within_order` is always strictly less
than the curve order q, but the draw is not exactly uniform over `[0, q)`: of
the `2^(8·MODBYTES)` equiprobable raw rng values, `⌊2^464 / q⌋ + 1` map to the
residue `0` while only `⌊2^464 / q⌋` map to the residue `q - 1`. -/
theorem c8_random_within_order_amended :
    (∀ raw : Nat, (Bn462Field.random_within_order raw).inner < CURVE_ORDER)
    ∧ drawCount 0 = 2 ^ (8 * MODBYTES) / CURVE_ORDER + 1
    ∧ drawCount (CURVE_ORDER - 1) = 2 ^ (8 * MODBYTES) / CURVE_ORDER := by
  refine ⟨?_, drawCount_zero, drawCount_last⟩
  intro raw
  exact Nat.mod_lt _ CURVE_ORDER_pos
